import Mathlib

/- Verification development for BuildMeC (src/buildmec.py), a small sequential
   build orchestrator.  The Python program is shallowly embedded below: strings
   are lists of characters, the filesystem is an explicit list of paths (and of
   path-content pairs where file contents matter), console output and child
   process invocations are recorded as an explicit event trace, and the exit
   status of external compiler invocations - which the Python code never
   inspects - is supplied by an oracle `List Str -> Bool`. -/

set_option maxRecDepth 8000

namespace BuildMeC

/-- Strings are modelled as lists of characters, so that every operation the
Python code performs on them (split, rsplit, join, lower) is a structurally
recursive Lean function that the kernel can evaluate. -/
abbrev Str := List Char

/-- Coerce a Lean string literal to the `Str` model. -/
def str (x : String) : Str := x.data

/-- Python `s.lower()` (ASCII case folding, which covers every string the
program compares). -/
def pyLower (x : Str) : Str := x.map Char.toLower

/-- Python `s.split(sep)` for a one-character separator: splits at every
occurrence, keeping empty pieces, and returns `[s]` (possibly `[[]]`) when the
separator does not occur. -/
def splitChar (sep : Char) : Str → List Str
  | [] => [[]]
  | a :: rest =>
    if a = sep then [] :: splitChar sep rest
    else
      match splitChar sep rest with
      | [] => [[a]]
      | h :: t => (a :: h) :: t

/-- Python `l[-1]` on a list of strings (the default `d` is irrelevant at every
call site because `splitChar` never returns an empty list). -/
def pyLast (d : Str) : List Str → Str
  | [] => d
  | [x] => x
  | _ :: xs => pyLast d xs

/-- The suffix strictly after the first occurrence of `sep`, if any. -/
def afterFirstSep (sep : Char) : Str → Option Str
  | [] => none
  | a :: rest => if a = sep then some rest else afterFirstSep sep rest

/-- Python `s.rsplit(sep, 1)[0]` for a one-character separator: everything
before the last occurrence of `sep`, or the whole string when `sep` does not
occur. -/
def rsplitBefore (sep : Char) (x : Str) : Str :=
  match afterFirstSep sep x.reverse with
  | some r => r.reverse
  | none => x

/-- Python `sep.join(xs)`. -/
def joinWith (sep : Str) : List Str → Str
  | [] => []
  | [x] => x
  | x :: xs => x ++ sep ++ joinWith sep xs

example : splitChar '/' (str "a/b") = [str "a", str "b"] := by decide
example : splitChar '/' (str "") = [str ""] := by decide
example : splitChar '/' (str "/a/") = [str "", str "a", str ""] := by decide
example : rsplitBefore '.' (str "a.b.c") = str "a.b" := by decide
example : rsplitBefore '.' (str "abc") = str "abc" := by decide
example : joinWith (str " ") [str "a", str "b"] = str "a b" := by decide
example : pyLower (str "YeS") = str "yes" := by decide

/-! ## Module-level constants (src/buildmec.py lines 26-29) -/

def CONFIG_NAME : Str := str "buildmec.json"

def BIN_PATH : Str := str "bin/"

def SRC_PATH : Str := str "src/"

/-! ## Toolchains (lines 16-24)

`TOOLCHAINS` is a dict with insertion order `cpp`, `c`.  The command surface
(argparse `choices=TOOLCHAINS.keys()`) only ever passes one of the two keys, so
the toolchain *kind* flowing through `initialize`/`write_default_config`/
`write_starter_code`/`reset_json` is modelled as a closed enumeration. -/

structure ToolchainInfo where
  ext : Str
  toolchain : Str
deriving DecidableEq

def TOOLCHAINS : List (Str × ToolchainInfo) :=
  [(str "cpp", ⟨str "cpp", str "g++"⟩), (str "c", ⟨str "c", str "gcc"⟩)]

inductive TCKind where
  | cpp
  | c
deriving DecidableEq

/-- `TOOLCHAINS.get(kind)` for the two keys the CLI admits. -/
def tcInfo : TCKind → ToolchainInfo
  | .cpp => ⟨str "cpp", str "g++"⟩
  | .c => ⟨str "c", str "gcc"⟩

def tcExt (tc : TCKind) : Str := (tcInfo tc).ext

def tcProg (tc : TCKind) : Str := (tcInfo tc).toolchain

/-! ## Data model

The parsed content of `buildmec.json`: `bin-path`, `src-path`, `sources`,
`out = {FINAL, obj-path}` and the optional `comp = {toolchain, flags}` section
(both of whose keys the code reads with `.get`, hence `Option` fields). -/

structure CompCfg where
  toolchain : Option Str
  flags : Option Str
deriving DecidableEq

structure Config where
  binPath : Str
  srcPath : Str
  sources : List Str
  outFinal : Str
  outObjPath : Str
  comp : Option CompCfg
deriving DecidableEq

/-- The two keys of the `out` mapping. -/
inductive OutKey where
  | FINAL
  | objPath
deriving DecidableEq

/-- `get_out_path` (lines 77-80): `config['bin-path'] + config['out'][ot]`. -/
def get_out_path (c : Config) : OutKey → Str
  | .FINAL => c.binPath ++ c.outFinal
  | .objPath => c.binPath ++ c.outObjPath

/-! ## Observable events

Everything the program does to the outside world is recorded in a trace:
coloured prints, `os.makedirs`, child-process invocations through
`subprocess.Popen` (with the exit status the code never reads), and the one
`os.system` call.  `subprocess.Popen(cmd, stdout=PIPE)` does not capture
stderr, so `process.communicate()` always returns `error = None` and the
`if error:` branch of `execute_in_shell` is dead; no event is emitted for it. -/

inductive Event where
  | pmsg (m : Str)
  | pwarn (m : Str)
  | perror (m : Str)
  | mkdir (d : Str)
  | shell (cmd : List Str) (ok : Bool)
  | runShellCmd (c : Str)
deriving DecidableEq

/-- Control flow after a step: normal continuation, `quit()` (SystemExit), or
an uncaught `KeyError` from indexing the empty config dict. -/
inductive Flow where
  | ok
  | quitAll
  | keyError
deriving DecidableEq

/-! ## Filesystem model

`files` maps paths of regular files to their contents; `dirs` lists existing
directories.  `path.exists` consults both.  Where only existence matters
(`compile_o`, `init_dirs`) a plain path list is used. -/

def fsExists (fs : List Str) (p : Str) : Bool := fs.contains p

def getFile (files : List (Str × Str)) (p : Str) : Option Str :=
  (files.find? (fun e => e.1 == p)).map (fun e => e.2)

/-- `open(p, 'w+')` followed by a write: replace the first binding of `p`, or
append a fresh one. -/
def setFile : List (Str × Str) → Str → Str → List (Str × Str)
  | [], p, v => [(p, v)]
  | e :: rest, p, v => if e.1 = p then (p, v) :: rest else e :: setFile rest p v

structure World where
  cfgFile : Option Config
  files : List (Str × Str)
  dirs : List Str
deriving DecidableEq

def pathExists (w : World) (p : Str) : Bool :=
  (getFile w.files p).isSome || w.dirs.contains p

/-- All existing paths of a world, as the plain list the compile phase checks
against. -/
def worldPaths (w : World) : List Str := w.files.map (fun e => e.1) ++ w.dirs

/-! ## Configuration manager (lines 39-75) -/

/-- `write_default_config` (lines 39-48): the parsed form of the JSON object it
dumps.  For the `c` toolchain a `comp` section with `toolchain: gcc` (and no
`flags` key) is added. -/
def write_default_config (tc : TCKind) : Config :=
  { binPath := BIN_PATH
    srcPath := SRC_PATH
    sources := [str "main." ++ tcExt tc]
    outFinal := str "main"
    outObjPath := str ""
    comp := match tc with
      | .c => some ⟨some (tcProg .c), none⟩
      | .cpp => none }

/-- `reset_json` (lines 63-66): reads an answer from the user and overwrites
the config file with the defaults only when `ans.lower() == 'yes'`; otherwise
the file is not touched at all. -/
def reset_json (ans : Str) (tc : TCKind) (cur : Option Config) : Option Config :=
  if pyLower ans = str "yes" then some (write_default_config tc) else cur

/-- `get_build_config` (lines 68-75): with no config file it prints an error
and returns the empty dict (modelled `none`); otherwise the parsed config. -/
def get_build_config (cfgFile : Option Config) : List Event × Option Config :=
  match cfgFile with
  | none => ([Event.perror (str "BuildMeC is not initialized.")], none)
  | some c => ([], some c)

/-! ## Directory creation (lines 82-85) -/

/-- `os.makedirs` over a list of candidate directories, skipping those whose
path already exists; returns the mkdir events and the list of created paths. -/
def makeDirs (fs : List Str) : List Str → List Event × List Str
  | [] => ([], [])
  | d :: rest =>
    if fsExists fs d then makeDirs fs rest
    else
      let r := makeDirs (fs ++ [d]) rest
      (Event.mkdir d :: r.1, d :: r.2)

/-- `init_dirs` (lines 82-85) over an existence list: the three directories
`src-path`, `bin-path` and `bin-path + out['obj-path']`. -/
def init_dirs (fs : List Str) (c : Config) : List Event × List Str :=
  let r := makeDirs fs [c.srcPath, c.binPath, get_out_path c .objPath]
  (r.1, fs ++ r.2)

/-! ## Scaffolder (lines 50-61, 87-96) -/

/-- The starter program `write_starter_code` writes for each toolchain
(lines 50-61); `\x7b`/`\x7d` are the literal braces of the C source text. -/
def starter_text : TCKind → Str
  | .cpp => str "#include <iostream>\n\nint main() \x7b\n    std::cout << \"Hello, world!\" << std::endl;\n    return 0;\n\x7d"
  | .c => str "#include <stdio.h>\n\nint main(int argc, char *argv[]) \x7b\n    printf(\"Hello, world!\\n\");\n    return 0;\n\x7d"

/-- `write_starter_code` (lines 50-61): truncate-or-create
`SRC_PATH + "main.{ext}"` with the starter program. -/
def write_starter_code (tc : TCKind) (w : World) : World :=
  { w with files := setFile w.files (SRC_PATH ++ str "main." ++ tcExt tc) (starter_text tc) }

/-- The first two statements of `initialize` (lines 88-93): reset or write the
default config, then `init_dirs(get_build_config())`.  After the first branch
the config file is always present; the impossible `none` is mapped to the
defaults. -/
def dirs_phase (tc : TCKind) (ans : Str) (w : World) : List Event × World :=
  let w1 : World :=
    { w with cfgFile := match w.cfgFile with
        | some cur => reset_json ans tc (some cur)
        | none => some (write_default_config tc) }
  let c : Config := match w1.cfgFile with
    | some c => c
    | none => write_default_config tc
  let r := makeDirs (worldPaths w1) [c.srcPath, c.binPath, get_out_path c .objPath]
  (r.1, { w1 with dirs := w1.dirs ++ r.2 })

/-- `initialize` (lines 87-96): config phase, directory phase, then the starter
file is written unless `SRC_PATH + "main.cpp"` exists - the guard names
`main.cpp` for every toolchain.  The trailing `quit()` is handled by the
caller (`mainFn`). -/
def init_project (tc : TCKind) (ans : Str) (w : World) : List Event × World :=
  let dp := dirs_phase tc ans w
  if pathExists dp.2 (SRC_PATH ++ str "main.cpp") then dp
  else (dp.1, write_starter_code tc dp.2)

/-! ## Compiler driver (lines 98-153) -/

/-- `TOOLCHAINS.values()` mapped to their program names, in dict insertion
order. -/
def valid_toolchains : List Str := TOOLCHAINS.map (fun e => e.2.toolchain)

/-- `get_tool_chain` (lines 98-105): with a `comp` section, the override name
(defaulting to `'CPP'`) is used when it is a known program name and otherwise
replaced by `'g++'`, while the flags string (defaulting to `''`) is split on
spaces either way; with no `comp` section the result is `('g++', [])`. -/
def get_tool_chain (c : Config) : Str × List Str :=
  match c.comp with
  | some comp =>
    let tool := comp.toolchain.getD (str "CPP")
    let flags := comp.flags.getD (str "")
    ((if valid_toolchains.contains tool then tool else str "g++"), splitChar ' ' flags)
  | none => (str "g++", [])

/-- `execute_in_shell` (lines 107-111): optionally echo the command, then run
it; `oracle cmd` is the success of the child process, which the code ignores
(stderr is not piped, so `error` is always `None`). -/
def execute_in_shell (oracle : List Str → Bool) (cmd : List Str) (showCmd : Bool) : List Event :=
  (if showCmd then [Event.pmsg (joinWith (str " ") cmd)] else []) ++ [Event.shell cmd (oracle cmd)]

/-- `just_filename` (lines 113-115): `file_path.split('/')[-1].rsplit('.', 1)[0]`. -/
def just_filename (file_path : Str) : Str :=
  rsplitBefore '.' (pyLast (str "") (splitChar '/' file_path))

/-- The object path `f"{obj_path}{just_filename(src_path + source_file)}.o"`
built at line 123. -/
def obj_path_of (objP srcP sf : Str) : Str :=
  objP ++ just_filename (srcP ++ sf) ++ str ".o"

/-- The warning printed at line 128 (the quotes the f-string puts around the
path are omitted from the model text). -/
def missing_msg (p : Str) : Str :=
  p ++ str " does not exist. Not adding to compilation."

/-- `compile_o` (lines 117-129): walk the declared sources in order; an
existing source contributes its object path (appended *before* the compiler is
invoked) and a compiler invocation, a missing one contributes a warning and is
skipped. -/
def compile_o (fs : List Str) (oracle : List Str → Bool) (bash_cmd : List Str)
    (srcP objP : Str) : List Str → List Str × List Event
  | [] => ([], [])
  | sf :: rest =>
    let swp := srcP ++ sf
    if fsExists fs swp then
      let o := obj_path_of objP srcP sf
      let cmd := bash_cmd ++ [swp, str "-c", str "-o", o]
      let r := compile_o fs oracle bash_cmd srcP objP rest
      (o :: r.1, execute_in_shell oracle cmd true ++ r.2)
    else
      let r := compile_o fs oracle bash_cmd srcP objP rest
      (r.1, Event.pwarn (missing_msg swp) :: r.2)

/-- Lines 139-142: `bash_cmd = [toolchain, *flags]`, then a single
`bash_cmd.remove('')` when the flags contain an empty string. -/
def bash_cmd_of (c : Config) : List Str :=
  let p := get_tool_chain c
  let b0 := p.1 :: p.2
  if p.2.contains ([] : Str) then b0.erase ([] : Str) else b0

/-- The object list `compile` passes on to linking (line 144). -/
def compiled_objs (fs : List Str) (oracle : List Str → Bool) (c : Config) : List Str :=
  (compile_o (init_dirs fs c).2 oracle (bash_cmd_of c) c.srcPath
    (get_out_path c .objPath) c.sources).1

/-- `compile` (lines 131-153): directories, toolchain, per-file compilation;
an empty object list aborts with an error (`quit()`), otherwise the link
command runs and, when the binary exists afterwards (modelled: the link
succeeded or it already existed), `chmod +x` is run without echoing. -/
def compile_fn (fs : List Str) (oracle : List Str → Bool) (c : Config) : List Event × Flow :=
  let dirR := init_dirs fs c
  let bash_cmd := bash_cmd_of c
  let coR := compile_o dirR.2 oracle bash_cmd c.srcPath (get_out_path c .objPath) c.sources
  if coR.1 = [] then
    (dirR.1 ++ coR.2 ++ [Event.perror (str "Not sources to compile.")], Flow.quitAll)
  else
    let bin_out := get_out_path c .FINAL
    let linkCmd := bash_cmd ++ coR.1 ++ [str "-o", bin_out]
    let linkEvs := execute_in_shell oracle linkCmd true
    let chmodEvs :=
      if oracle linkCmd || fsExists dirR.2 bin_out then
        execute_in_shell oracle [str "chmod", str "+x", bin_out] false
      else []
    (dirR.1 ++ coR.2 ++ linkEvs ++ chmodEvs, Flow.ok)

/-! ## Runner (lines 155-157) -/

/-- `' '.join(args)`. -/
def joinArgs (args : List Str) : Str := joinWith (str " ") args

/-- The string handed to `os.system`:
`f"./{get_out_path(config, 'FINAL')} {' '.join(args)}"`. -/
def runCmdText (c : Config) (args : List Str) : Str :=
  str "./" ++ get_out_path c .FINAL ++ str " " ++ joinArgs args

/-- `run_project` (lines 155-157).  With the empty dict of an uninitialized
project, `get_out_path` raises `KeyError` on `config['bin-path']` before
`os.system` runs. -/
def run_project (cfg : Option Config) (args : List Str) : List Event × Flow :=
  match cfg with
  | none => ([], Flow.keyError)
  | some c => ([Event.runShellCmd (runCmdText c args)], Flow.ok)

/-! ## Command surface (lines 162-184)

`args.init` is `None` or one of argparse's `choices` (the two toolchain keys,
already lower case, so the `.lower()` at line 172 is the identity); `args.run`
is `False` (`none`) or the forwarded argument list. -/

structure Args where
  init : Option TCKind
  compileFlag : Bool
  run : Option (List Str)
deriving DecidableEq

/-- Lines 176-177: `if args.compile and config: compile(config)` - the empty
dict of an uninitialized project is falsy, so compilation is skipped then. -/
def compile_phase (w : World) (oracle : List Str → Bool) (cfgOpt : Option Config)
    (cf : Bool) : List Event × Flow :=
  if cf then
    match cfgOpt with
    | some c => compile_fn (worldPaths w) oracle c
    | none => ([], Flow.ok)
  else ([], Flow.ok)

/-- `main` (lines 162-181): `initialize` (which ends in `quit()`) when init is
requested; otherwise load the config, compile when requested and the config
dict is truthy, and run last.  A `quit()` raised inside `compile` ends the
invocation. -/
def mainFn (w : World) (ans : Str) (oracle : List Str → Bool) (a : Args) : List Event × Flow :=
  match a.init with
  | some tc => ((init_project tc ans w).1, Flow.quitAll)
  | none =>
    let cfgR := get_build_config w.cfgFile
    let compR := compile_phase w oracle cfgR.2 a.compileFlag
    match compR.2 with
    | Flow.quitAll => (cfgR.1 ++ compR.1, Flow.quitAll)
    | _ =>
      match a.run with
      | none => (cfgR.1 ++ compR.1, Flow.ok)
      | some r =>
        let runR := run_project cfgR.2 r
        (cfgR.1 ++ compR.1 ++ runR.1, runR.2)

/-! ## Specification-side definitions

These follow the words of the specification and of the claims, to be compared
with the definitions translated from the source above. -/

/-- The text of `p` after the last occurrence of `sep` (all of `p` when `sep`
does not occur). -/
def afterLastSep (sep : Char) : Str → Str
  | [] => []
  | a :: rest => if sep ∈ a :: rest then afterLastSep sep rest else a :: rest

/-- The text of `p` before the last occurrence of `sep` (all of `p` when `sep`
does not occur). -/
def beforeLastSep (sep : Char) : Str → Str
  | [] => []
  | a :: rest =>
    if sep ∈ rest then a :: beforeLastSep sep rest
    else if a = sep then []
    else a :: rest

/-- The words a POSIX shell makes of a simple command string (no quoting or
metacharacters involved): split on spaces, dropping empty fields.  Word 0 is
the program, the rest are the arguments the child process receives. -/
def shellWords (x : Str) : List Str :=
  (splitChar ' ' x).filter (fun w => !w.isEmpty)

/-! ## Auxiliary predicates and concrete inputs used by the theorems -/

/-- Is this event a missing-source warning? -/
def isWarnB : Event → Bool
  | .pwarn _ => true
  | _ => false

/-- True for every event that is neither a child-process invocation
(`subprocess.Popen`, i.e. a compile or link step) nor an `os.system` run. -/
def notProcB : Event → Bool
  | .shell _ _ => false
  | .runShellCmd _ => false
  | _ => true

/-- An exit-status oracle under which every child process succeeds. -/
def oracleT : List Str → Bool := fun _ => true

/-- An exit-status oracle under which every child process fails. -/
def oracleF : List Str → Bool := fun _ => false

/-- A config whose `comp` section names the unknown toolchain `clang` with
flags `-O2`. -/
def cfgUnknownTool : Config :=
  { binPath := str "bin/", srcPath := str "src/", sources := [str "main.cpp"]
    outFinal := str "main", outObjPath := str ""
    comp := some ⟨some (str "clang"), some (str "-O2")⟩ }

/-- A config whose `comp` section names the known toolchain `gcc` with two
flags. -/
def cfgKnownTool : Config :=
  { binPath := str "bin/", srcPath := str "src/", sources := [str "main.c"]
    outFinal := str "main", outObjPath := str ""
    comp := some ⟨some (str "gcc"), some (str "-Wall -O2")⟩ }

/-- An initialized project world: default cpp config on disk, no files, no
directories. -/
def wCfg : World := ⟨some (write_default_config .cpp), [], []⟩

/-- A world with no config file at all. -/
def wEmpty : World := ⟨none, [], []⟩

/-! ## Lemmas about the string model -/

theorem splitChar_ne_nil (sep : Char) (x : Str) : splitChar sep x ≠ [] := by
  cases x with
  | nil => simp [splitChar]
  | cons a rest =>
    simp only [splitChar]
    split
    · simp
    · cases h : splitChar sep rest <;> simp

theorem splitChar_of_not_mem {sep : Char} {x : Str} (h : sep ∉ x) :
    splitChar sep x = [x] := by
  induction x with
  | nil => rfl
  | cons a rest ih =>
    have ha : ¬ a = sep := fun he => h (he ▸ List.mem_cons_self a rest)
    have hr : sep ∉ rest := fun hm => h (List.mem_cons_of_mem a hm)
    simp only [splitChar, if_neg ha, ih hr]

theorem splitChar_length (sep : Char) (x : Str) :
    (splitChar sep x).length = x.count sep + 1 := by
  induction x with
  | nil => simp [splitChar]
  | cons a rest ih =>
    by_cases ha : a = sep
    · subst ha
      simp [splitChar, ih, List.count_cons]
    · have hsa : ¬ sep = a := fun he => ha he.symm
      simp only [splitChar, if_neg ha]
      cases h : splitChar sep rest with
      | nil => exact absurd h (splitChar_ne_nil sep rest)
      | cons hd tl =>
        rw [h] at ih
        simp only [List.length_cons, List.count_cons, beq_iff_eq, if_neg ha] at ih ⊢
        omega

theorem pyLast_splitChar (sep : Char) (p : Str) :
    pyLast (str "") (splitChar sep p) = afterLastSep sep p := by
  induction p with
  | nil => rfl
  | cons a rest ih =>
    by_cases ha : a = sep
    · subst ha
      simp only [splitChar, if_pos rfl]
      cases h : splitChar a rest with
      | nil => exact absurd h (splitChar_ne_nil a rest)
      | cons hd tl =>
        have hmem : a ∈ a :: rest := List.mem_cons_self a rest
        rw [h] at ih
        simp only [afterLastSep, if_pos hmem]
        cases tl with
        | nil => simpa [pyLast] using ih
        | cons t1 t2 => simpa [pyLast] using ih
    · simp only [splitChar, if_neg ha]
      cases h : splitChar sep rest with
      | nil => exact absurd h (splitChar_ne_nil sep rest)
      | cons hd tl =>
        cases tl with
        | nil =>
          -- a single piece: `sep` does not occur in `rest`
          have hcount : rest.count sep = 0 := by
            have := splitChar_length sep rest
            rw [h] at this
            simpa using this.symm
          have hnm : sep ∉ rest := List.count_eq_zero.mp hcount
          have hd_eq : hd = rest := by
            have hrest : splitChar sep rest = [rest] := splitChar_of_not_mem hnm
            rw [h] at hrest
            simpa using hrest
          have hsa : ¬ sep = a := fun he => ha he.symm
          rw [hd_eq]
          simp [pyLast, afterLastSep, hsa, hnm]
        | cons t1 t2 =>
          -- at least two pieces: `sep` occurs in `rest`
          have hcount : 0 < rest.count sep := by
            have := splitChar_length sep rest
            rw [h] at this
            simp only [List.length_cons] at this
            omega
          have hmem : sep ∈ rest := List.count_pos_iff.mp hcount
          have hmem2 : sep ∈ a :: rest := List.mem_cons_of_mem a hmem
          rw [h] at ih
          simp only [afterLastSep, if_pos hmem2]
          simpa [pyLast] using ih

theorem afterFirstSep_append (sep : Char) (u v : Str) :
    afterFirstSep sep (u ++ v) =
      match afterFirstSep sep u with
      | some r => some (r ++ v)
      | none => afterFirstSep sep v := by
  induction u with
  | nil => simp [afterFirstSep]
  | cons a u ih =>
    by_cases ha : a = sep
    · simp [afterFirstSep, ha]
    · simp [afterFirstSep, ha, ih]

theorem afterFirstSep_eq_none {sep : Char} {x : Str} :
    afterFirstSep sep x = none ↔ sep ∉ x := by
  induction x with
  | nil => simp [afterFirstSep]
  | cons a rest ih =>
    by_cases ha : a = sep
    · subst ha
      simp [afterFirstSep]
    · simp [afterFirstSep, ha, ih, Ne.symm ha]

theorem rsplitBefore_eq_beforeLastSep (sep : Char) (q : Str) :
    rsplitBefore sep q = beforeLastSep sep q := by
  induction q with
  | nil => rfl
  | cons a rest ih =>
    simp only [rsplitBefore, List.reverse_cons, afterFirstSep_append]
    cases h : afterFirstSep sep rest.reverse with
    | some r =>
      have hmem : sep ∈ rest := by
        by_contra hnm
        have : afterFirstSep sep rest.reverse = none := by
          rw [afterFirstSep_eq_none]
          simpa using hnm
        rw [h] at this
        cases this
      simp only [beforeLastSep, if_pos hmem]
      rw [← ih]
      simp only [rsplitBefore, h, List.reverse_append, List.reverse_cons,
        List.reverse_nil, List.nil_append, List.singleton_append]
    | none =>
      have hnm : sep ∉ rest := by
        have := afterFirstSep_eq_none.mp h
        simpa using this
      by_cases ha : a = sep
      · subst ha
        simp [afterFirstSep, beforeLastSep, hnm]
      · have hsa : ¬ sep = a := fun he => ha he.symm
        simp [afterFirstSep, beforeLastSep, hnm, ha, hsa]

theorem just_filename_eq_spec (p : Str) :
    just_filename p = beforeLastSep '.' (afterLastSep '/' p) := by
  unfold just_filename
  rw [pyLast_splitChar, rsplitBefore_eq_beforeLastSep]

theorem afterLastSep_append_sep (sep : Char) (x b : Str) :
    afterLastSep sep (x ++ sep :: b) = afterLastSep sep b := by
  induction x with
  | nil =>
    have hmem : sep ∈ sep :: b := List.mem_cons_self sep b
    simp [afterLastSep, hmem]
  | cons a x ih =>
    have hmem : sep ∈ a :: (x ++ sep :: b) := by
      apply List.mem_cons_of_mem
      exact List.mem_append_right x (List.mem_cons_self sep b)
    simpa [afterLastSep, hmem] using ih

theorem afterLastSep_of_not_mem {sep : Char} {b : Str} (h : sep ∉ b) :
    afterLastSep sep b = b := by
  cases b with
  | nil => rfl
  | cons a rest => simp [afterLastSep, h]

theorem splitChar_append_sep (sep : Char) (x y : Str) :
    splitChar sep (x ++ sep :: y) = splitChar sep x ++ splitChar sep y := by
  induction x with
  | nil => simp [splitChar]
  | cons a x ih =>
    by_cases ha : a = sep
    · subst ha
      simp [splitChar, ih]
    · have hstep : (a :: x) ++ sep :: y = a :: (x ++ sep :: y) := rfl
      rw [hstep]
      simp only [splitChar, if_neg ha]
      rw [ih]
      cases h : splitChar sep x with
      | nil => exact absurd h (splitChar_ne_nil sep x)
      | cons hd tl => simp

theorem shellWords_append_space (x y : Str) :
    shellWords (x ++ ' ' :: y) = shellWords x ++ shellWords y := by
  simp [shellWords, splitChar_append_sep, List.filter_append]

theorem shellWords_single {w : Str} (h1 : ' ' ∉ w) (h2 : w ≠ []) :
    shellWords w = [w] := by
  simp [shellWords, splitChar_of_not_mem h1, List.isEmpty_iff, h2]

theorem shellWords_join (args : List Str)
    (h : ∀ a ∈ args, a ≠ [] ∧ ' ' ∉ a) : shellWords (joinArgs args) = args := by
  induction args with
  | nil => rfl
  | cons a rest ih =>
    cases rest with
    | nil =>
      have := h a (List.mem_cons_self a [])
      exact shellWords_single this.2 this.1
    | cons b t =>
      have hj : joinArgs (a :: b :: t) = a ++ ' ' :: joinArgs (b :: t) := by
        show (a ++ str " ") ++ joinArgs (b :: t) = a ++ ' ' :: joinArgs (b :: t)
        rw [List.append_assoc]
        rfl
      have ha := h a (List.mem_cons_self a (b :: t))
      rw [hj, shellWords_append_space, shellWords_single ha.2 ha.1]
      rw [ih (fun x hx => h x (List.mem_cons_of_mem a hx))]
      rfl

/-! ## Lemmas about the compile phase -/

theorem compile_o_objs (fs : List Str) (oracle : List Str → Bool) (bc : List Str)
    (srcP objP : Str) (sources : List Str) :
    (compile_o fs oracle bc srcP objP sources).1 =
      (sources.filter (fun sf => fsExists fs (srcP ++ sf))).map
        (fun sf => obj_path_of objP srcP sf) := by
  induction sources with
  | nil => rfl
  | cons sf rest ih =>
    by_cases h : fsExists fs (srcP ++ sf)
    · simp [compile_o, h, ih, List.filter_cons]
    · simp [compile_o, h, ih, List.filter_cons]

theorem compile_o_warns (fs : List Str) (oracle : List Str → Bool) (bc : List Str)
    (srcP objP : Str) (sources : List Str) :
    ((compile_o fs oracle bc srcP objP sources).2).filter isWarnB =
      (sources.filter (fun sf => !fsExists fs (srcP ++ sf))).map
        (fun sf => Event.pwarn (missing_msg (srcP ++ sf))) := by
  induction sources with
  | nil => rfl
  | cons sf rest ih =>
    by_cases h : fsExists fs (srcP ++ sf)
    · simp [compile_o, h, ih, List.filter_cons, execute_in_shell, isWarnB]
    · simp [compile_o, h, ih, List.filter_cons, isWarnB]

theorem compile_o_nil_no_proc (fs : List Str) (oracle : List Str → Bool) (bc : List Str)
    (srcP objP : Str) (sources : List Str)
    (h : (compile_o fs oracle bc srcP objP sources).1 = []) :
    ((compile_o fs oracle bc srcP objP sources).2).all notProcB = true := by
  induction sources with
  | nil => rfl
  | cons sf rest ih =>
    by_cases he : fsExists fs (srcP ++ sf)
    · simp [compile_o, he] at h
    · simp only [compile_o, he] at h ⊢
      simp [List.all_cons, notProcB, ih h]

theorem makeDirs_no_proc (ds : List Str) : ∀ fs : List Str,
    ((makeDirs fs ds).1).all notProcB = true := by
  induction ds with
  | nil => intro fs; rfl
  | cons d rest ih =>
    intro fs
    by_cases h : fsExists fs d
    · simp [makeDirs, h, ih]
    · simp [makeDirs, h, List.all_cons, notProcB, ih]

/-! ## Claim theorems -/

/-- Claim C1: over any declared source list, `compile_o` returns one object
path per source that exists on disk and one missing-source warning per source
that does not, both in declared input order; the per-file loop never aborts
(its result is total and covers every entry).  The N/M counts of the claim are
the two `countP` equalities. -/
theorem compile_o_counts_and_order (fs : List Str) (oracle : List Str → Bool)
    (bc : List Str) (srcP objP : Str) (sources : List Str) :
    (compile_o fs oracle bc srcP objP sources).1 =
      (sources.filter (fun sf => fsExists fs (srcP ++ sf))).map
        (fun sf => obj_path_of objP srcP sf) ∧
    ((compile_o fs oracle bc srcP objP sources).2).filter isWarnB =
      (sources.filter (fun sf => !fsExists fs (srcP ++ sf))).map
        (fun sf => Event.pwarn (missing_msg (srcP ++ sf))) ∧
    ((compile_o fs oracle bc srcP objP sources).1).length =
      sources.countP (fun sf => fsExists fs (srcP ++ sf)) ∧
    ((compile_o fs oracle bc srcP objP sources).2).countP isWarnB =
      sources.countP (fun sf => !fsExists fs (srcP ++ sf)) := by
  refine ⟨compile_o_objs fs oracle bc srcP objP sources,
    compile_o_warns fs oracle bc srcP objP sources, ?_, ?_⟩
  · rw [compile_o_objs fs oracle bc srcP objP sources]
    simp [List.countP_eq_length_filter]
  · rw [List.countP_eq_length_filter, compile_o_warns fs oracle bc srcP objP sources]
    simp [List.countP_eq_length_filter]

/-- Claim C9 (amended): the object list `compile_o` builds contains one path
per declared source that exists on disk - independent of the exit status of
the compiler invocations, because the path is appended before the compiler
runs and its status is never inspected.  A failing invocation therefore still
contributes its object path. -/
theorem objs_independent_of_invocation_success (fs : List Str)
    (o1 o2 : List Str → Bool) (bc : List Str) (srcP objP : Str)
    (sources : List Str) :
    (compile_o fs o1 bc srcP objP sources).1 = (compile_o fs o2 bc srcP objP sources).1 ∧
    (compile_o fs o1 bc srcP objP sources).1 =
      (sources.filter (fun sf => fsExists fs (srcP ++ sf))).map
        (fun sf => obj_path_of objP srcP sf) :=
  ⟨(compile_o_objs fs o1 bc srcP objP sources).trans
      (compile_o_objs fs o2 bc srcP objP sources).symm,
    compile_o_objs fs o1 bc srcP objP sources⟩

/-- Claim C9, counterexample to the claim as stated: `src/main.cpp` exists,
every compiler invocation fails (`oracleF`), the trace records the failed
invocation - yet the object list still contains `main.o`, which is then passed
on to linking. -/
theorem failed_compile_still_listed_cex :
    (compile_o [str "src/main.cpp"] oracleF [str "g++"] (str "src/") (str "")
        [str "main.cpp"]).1 = [str "main.o"] ∧
    Event.shell [str "g++", str "src/main.cpp", str "-c", str "-o", str "main.o"] false ∈
      (compile_o [str "src/main.cpp"] oracleF [str "g++"] (str "src/") (str "")
        [str "main.cpp"]).2 := by
  decide

/-- Claim C10: `just_filename` agrees with the specification formula - the
text after the last `/` and, within it, before the last `.` - and
consequently two declared sources with the same basename in different
subdirectories yield the identical object path. -/
theorem object_path_derivation :
    (∀ p : Str, just_filename p = beforeLastSep '.' (afterLastSep '/' p)) ∧
    (∀ objP srcP d1 d2 b : Str, ('/' : Char) ∉ b →
      obj_path_of objP srcP (d1 ++ str "/" ++ b) =
        obj_path_of objP srcP (d2 ++ str "/" ++ b)) := by
  constructor
  · exact just_filename_eq_spec
  · intro objP srcP d1 d2 b hb
    have key : ∀ d : Str, just_filename (srcP ++ (d ++ str "/" ++ b)) = beforeLastSep '.' b := by
      intro d
      have h1 : srcP ++ (d ++ str "/" ++ b) = (srcP ++ d) ++ '/' :: b := by
        have h2 : str "/" ++ b = '/' :: b := rfl
        rw [← h2]
        simp [List.append_assoc]
      rw [just_filename_eq_spec, h1, afterLastSep_append_sep,
        afterLastSep_of_not_mem hb]
    simp only [obj_path_of, key]

/-- Claim C10: witness evaluating the collision consequence at
`a/main.cpp` and `b/main.cpp`. -/
theorem object_path_derivation_witness :
    obj_path_of (str "bin/") (str "src/") (str "a/main.cpp") =
      obj_path_of (str "bin/") (str "src/") (str "b/main.cpp") :=
  object_path_derivation.2 (str "bin/") (str "src/") (str "a") (str "b")
    (str "main.cpp") (by decide)

theorem init_dirs_no_proc (fs : List Str) (c : Config) :
    ((init_dirs fs c).1).all notProcB = true := by
  simpa [init_dirs] using makeDirs_no_proc [c.srcPath, c.binPath, get_out_path c .objPath] fs

/-- Claim C2: when the per-file compilation produces an empty object list
(for example because every declared source is missing), `compile` reports
`Not sources to compile.` and raises `quit()`: no compiler or linker process
is ever started, and the surrounding invocation ends without reaching the run
step. -/
theorem compile_aborts_when_no_objects
    (w : World) (ans : Str) (oracle : List Str → Bool) (c : Config) (a : Args)
    (hcfg : w.cfgFile = some c) (hinit : a.init = none) (hcomp : a.compileFlag = true)
    (h : compiled_objs (worldPaths w) oracle c = []) :
    (compile_fn (worldPaths w) oracle c).2 = Flow.quitAll ∧
    Event.perror (str "Not sources to compile.") ∈ (compile_fn (worldPaths w) oracle c).1 ∧
    ((compile_fn (worldPaths w) oracle c).1).all notProcB = true ∧
    (mainFn w ans oracle a).2 = Flow.quitAll ∧
    ((mainFn w ans oracle a).1).all notProcB = true := by
  have hco : (compile_o (init_dirs (worldPaths w) c).2 oracle (bash_cmd_of c) c.srcPath
      (get_out_path c .objPath) c.sources).1 = [] := h
  have hfn : compile_fn (worldPaths w) oracle c =
      ((init_dirs (worldPaths w) c).1 ++
        (compile_o (init_dirs (worldPaths w) c).2 oracle (bash_cmd_of c) c.srcPath
          (get_out_path c .objPath) c.sources).2 ++
        [Event.perror (str "Not sources to compile.")], Flow.quitAll) := by
    simp only [compile_fn]
    rw [if_pos hco]
  have h1 : (compile_fn (worldPaths w) oracle c).2 = Flow.quitAll := by rw [hfn]
  have h2 : Event.perror (str "Not sources to compile.") ∈
      (compile_fn (worldPaths w) oracle c).1 := by
    rw [hfn]; simp
  have h3 : ((compile_fn (worldPaths w) oracle c).1).all notProcB = true := by
    rw [hfn]
    simp [init_dirs_no_proc,
      compile_o_nil_no_proc (init_dirs (worldPaths w) c).2 oracle (bash_cmd_of c)
        c.srcPath (get_out_path c .objPath) c.sources hco, notProcB]
  refine ⟨h1, h2, h3, ?_, ?_⟩
  · rcases a with ⟨i, cf, r⟩
    have hi : i = none := hinit
    have hc : cf = true := hcomp
    subst hi; subst hc
    simp [mainFn, compile_phase, hcfg, get_build_config, h1]
  · rcases a with ⟨i, cf, r⟩
    have hi : i = none := hinit
    have hc : cf = true := hcomp
    subst hi; subst hc
    simp [mainFn, compile_phase, hcfg, get_build_config, h1, h3]

/-- Claim C2: witness at the default cpp config over an empty filesystem (the
single declared source `main.cpp` is missing, so the object list is empty). -/
theorem compile_aborts_when_no_objects_witness :
    (compile_fn (worldPaths wCfg) oracleT (write_default_config .cpp)).2 = Flow.quitAll ∧
    Event.perror (str "Not sources to compile.") ∈
      (compile_fn (worldPaths wCfg) oracleT (write_default_config .cpp)).1 ∧
    ((compile_fn (worldPaths wCfg) oracleT (write_default_config .cpp)).1).all notProcB = true ∧
    (mainFn wCfg (str "") oracleT ⟨none, true, some []⟩).2 = Flow.quitAll ∧
    ((mainFn wCfg (str "") oracleT ⟨none, true, some []⟩).1).all notProcB = true :=
  compile_aborts_when_no_objects wCfg (str "") oracleT (write_default_config .cpp)
    ⟨none, true, some []⟩ rfl rfl rfl (by decide)

/-- Claim C3 (amended): with no configuration file, `main` reports
`BuildMeC is not initialized.` and skips a requested compile (the empty dict
is falsy), but a requested run is NOT skipped: `run_project` is still entered
on the empty config and dies with an uncaught `KeyError` on
`config['bin-path']`.  The whole trace is exactly the one error message. -/
theorem main_missing_config_behavior (w : World) (ans : Str) (oracle : List Str → Bool)
    (a : Args) (hinit : a.init = none) (hcfg : w.cfgFile = none) :
    mainFn w ans oracle a =
      ([Event.perror (str "BuildMeC is not initialized.")],
        match a.run with
        | none => Flow.ok
        | some _ => Flow.keyError) := by
  rcases a with ⟨i, cf, r⟩
  have hi : i = none := hinit
  subst hi
  cases cf <;> cases r <;>
    simp [mainFn, compile_phase, hcfg, get_build_config, run_project]

/-- Claim C3: witness with neither compile nor run requested. -/
theorem main_missing_config_behavior_witness :
    mainFn wEmpty (str "") oracleT ⟨none, false, some [str "a"]⟩ =
      ([Event.perror (str "BuildMeC is not initialized.")], Flow.keyError) :=
  main_missing_config_behavior wEmpty (str "") oracleT ⟨none, false, some [str "a"]⟩ rfl rfl

/-- Claim C3, counterexample to the claim as stated: with no config file and
both compile and run requested, compile is indeed skipped, but the run is
attempted - the invocation ends in `run_project`'s uncaught `KeyError`
(`Flow.keyError`), not in the run being skipped. -/
theorem main_missing_config_run_attempted_cex :
    mainFn wEmpty (str "") oracleT ⟨none, true, some []⟩ =
      ([Event.perror (str "BuildMeC is not initialized.")], Flow.keyError) := by
  decide

/-- Claim C4 (amended): `init`, when requested, scaffolds and then terminates
the invocation via `quit()` - whatever the compile and run flags say, neither
is performed afterwards; when `init` is not requested, the trace is config
loading, then the compile phase, and, whenever the compile phase did not
`quit()`, the run events strictly last. -/
theorem main_sequencing (w : World) (ans : Str) (oracle : List Str → Bool) :
    (∀ (tc : TCKind) (cf : Bool) (r : Option (List Str)),
      mainFn w ans oracle ⟨some tc, cf, r⟩ = ((init_project tc ans w).1, Flow.quitAll)) ∧
    (∀ (cf : Bool) (r : List Str),
      (mainFn w ans oracle ⟨none, cf, none⟩).2 = Flow.ok →
      mainFn w ans oracle ⟨none, cf, some r⟩ =
        ((mainFn w ans oracle ⟨none, cf, none⟩).1 ++
          (run_project (get_build_config w.cfgFile).2 r).1,
         (run_project (get_build_config w.cfgFile).2 r).2)) := by
  constructor
  · intro tc cf r
    rfl
  · intro cf r hok
    cases hq : (compile_phase w oracle (get_build_config w.cfgFile).2 cf).2 with
    | quitAll =>
      exfalso
      simp only [mainFn] at hok
      rw [hq] at hok
      cases hok
    | ok =>
      simp only [mainFn]
      rw [hq]
    | keyError =>
      simp only [mainFn]
      rw [hq]

/-- Claim C4: witness for the run-last part, over an initialized project with
compile not requested. -/
theorem main_sequencing_witness :
    mainFn wCfg (str "") oracleT ⟨none, false, some [str "x"]⟩ =
      ((mainFn wCfg (str "") oracleT ⟨none, false, none⟩).1 ++
        (run_project (get_build_config wCfg.cfgFile).2 [str "x"]).1,
       (run_project (get_build_config wCfg.cfgFile).2 [str "x"]).2) :=
  (main_sequencing wCfg (str "") oracleT).2 false [str "x"] (by decide)

/-- Claim C4, counterexample to the claim as stated: an invocation requesting
both init and compile performs no compile at all - `initialize` ends in
`quit()`, so the trace holds only the two scaffolding `mkdir` events (no
compiler invocation) and the flow is the `quit()` termination. -/
theorem main_init_skips_compile_cex :
    mainFn wEmpty (str "") oracleT ⟨some TCKind.cpp, true, none⟩ =
      ([Event.mkdir (str "src/"), Event.mkdir (str "bin/")], Flow.quitAll) := by
  decide

/-- Claim C5 (amended): the run step hands the shell a single command string,
the binary path and the arguments joined by single spaces; the child process
receives the arguments verbatim, in order, after the binary path, exactly when
every argument is a nonempty single shell word (no space in it). -/
theorem run_forwards_single_word_args (c : Config) (args : List Str)
    (hout : (' ' : Char) ∉ get_out_path c .FINAL)
    (hargs : ∀ a ∈ args, a ≠ [] ∧ (' ' : Char) ∉ a) :
    shellWords (runCmdText c args) = (str "./" ++ get_out_path c .FINAL) :: args := by
  have hsplit : runCmdText c args =
      (str "./" ++ get_out_path c .FINAL) ++ ' ' :: joinArgs args := by
    unfold runCmdText
    rw [List.append_assoc]
    exact rfl
  have h1 : (' ' : Char) ∉ str "./" ++ get_out_path c .FINAL := by
    intro hm
    rcases List.mem_append.mp hm with hl | hr
    · exact absurd hl (by decide)
    · exact hout hr
  have h2 : str "./" ++ get_out_path c .FINAL ≠ [] := by
    have : str "./" ≠ ([] : Str) := by decide
    exact fun he => this (List.append_eq_nil.mp he).1
  rw [hsplit, shellWords_append_space, shellWords_single h1 h2,
    shellWords_join args hargs]
  rfl

/-- Claim C5: witness at the default cpp config with forwarded arguments
`a` and `b`: the child receives exactly those two arguments, in order, after
the binary path. -/
theorem run_forwards_single_word_args_witness :
    shellWords (runCmdText (write_default_config .cpp) [str "a", str "b"]) =
      (str "./" ++ get_out_path (write_default_config .cpp) .FINAL) ::
        [str "a", str "b"] :=
  run_forwards_single_word_args (write_default_config .cpp) [str "a", str "b"]
    (by decide) (by decide)

/-- Claim C5, counterexample to the claim as stated: the single argument
`"a b"` produces the same `os.system` string as the two arguments `"a"`,
`"b"`, so the child receives two words `a` and `b` - not the one argument
verbatim. -/
theorem run_args_not_verbatim_cex :
    runCmdText (write_default_config .cpp) [str "a b"] =
      runCmdText (write_default_config .cpp) [str "a", str "b"] ∧
    shellWords (runCmdText (write_default_config .cpp) [str "a b"]) =
      [str "./bin/main", str "a", str "b"] := by
  decide

theorem dirs_phase_files (tc : TCKind) (ans : Str) (w : World) :
    (dirs_phase tc ans w).2.files = w.files := by
  rcases w with ⟨cf, files, dirs⟩
  cases cf <;> rfl

/-- Claim C6 (amended): `initialize` writes the starter source exactly when no
path `src/main.cpp` exists after the config and directory phases - the guard
names `main.cpp` for every toolchain.  Hence an existing `src/main.cpp` is
never overwritten, but under the C toolchain the starter is written to
`src/main.c` (overwriting any existing file there) whenever `src/main.cpp` is
absent. -/
theorem starter_write_guard (tc : TCKind) (ans : Str) (w : World) :
    (init_project tc ans w).2.files =
      if pathExists (dirs_phase tc ans w).2 (SRC_PATH ++ str "main.cpp")
      then w.files
      else setFile w.files (SRC_PATH ++ str "main." ++ tcExt tc) (starter_text tc) := by
  by_cases h : pathExists (dirs_phase tc ans w).2 (SRC_PATH ++ str "main.cpp")
  · simp [init_project, h, dirs_phase_files]
  · simp [init_project, h, write_starter_code, dirs_phase_files]

/-- Claim C6, counterexample to the claim as stated: initializing with the C
toolchain while a user file `src/main.c` exists (and `src/main.cpp` does not)
overwrites the user file with the starter program. -/
theorem starter_overwrites_c_source_cex :
    getFile (init_project TCKind.c (str "")
        ⟨none, [(str "src/main.c", str "user code")], []⟩).2.files
      (str "src/main.c") = some (starter_text TCKind.c) ∧
    starter_text TCKind.c ≠ str "user code" := by
  decide

/-- Claim C7: `reset_json` overwrites the configuration exactly when the
answer lowercases to `yes`; on every other answer the stored configuration is
returned untouched (no write is performed). -/
theorem reset_json_noop_unless_yes (ans : Str) (tc : TCKind) (cur : Option Config) :
    (pyLower ans ≠ str "yes" → reset_json ans tc cur = cur) ∧
    (pyLower ans = str "yes" → reset_json ans tc cur = some (write_default_config tc)) := by
  constructor
  · intro h
    simp [reset_json, h]
  · intro h
    simp [reset_json, h]

/-- Claim C7: witness - answering `no` leaves the stored config unchanged,
answering `YeS` overwrites it with the defaults. -/
theorem reset_json_noop_unless_yes_witness :
    reset_json (str "no") TCKind.cpp (some (write_default_config TCKind.c)) =
      some (write_default_config TCKind.c) ∧
    reset_json (str "YeS") TCKind.cpp (some (write_default_config TCKind.c)) =
      some (write_default_config TCKind.cpp) :=
  ⟨(reset_json_noop_unless_yes (str "no") TCKind.cpp
      (some (write_default_config TCKind.c))).1 (by decide),
   (reset_json_noop_unless_yes (str "YeS") TCKind.cpp
      (some (write_default_config TCKind.c))).2 (by decide)⟩

/-- Claim C8 (amended): with a `comp` section, a known override program name
is used as given, and an unknown one silently falls back to `g++` - but the
override's flags are KEPT either way (the flags string, defaulting to the
empty string, is split on spaces); only a config without any `comp` section
yields `g++` with an empty flag list.  The function is total: no input makes
it raise. -/
theorem get_tool_chain_behavior (c : Config) (cp : CompCfg) :
    (c.comp = none → get_tool_chain c = (str "g++", ([] : List Str))) ∧
    (c.comp = some cp →
      (valid_toolchains.contains (cp.toolchain.getD (str "CPP")) = true →
        get_tool_chain c =
          (cp.toolchain.getD (str "CPP"), splitChar ' ' (cp.flags.getD (str "")))) ∧
      (valid_toolchains.contains (cp.toolchain.getD (str "CPP")) = false →
        get_tool_chain c = (str "g++", splitChar ' ' (cp.flags.getD (str ""))))) := by
  refine ⟨?_, ?_⟩
  · intro h
    simp [get_tool_chain, h]
  · intro h
    constructor
    · intro hv
      have hv2 : cp.toolchain.getD (str "CPP") ∈ valid_toolchains := by simpa using hv
      simp [get_tool_chain, h, hv2]
    · intro hv
      have hv2 : cp.toolchain.getD (str "CPP") ∉ valid_toolchains := by simpa using hv
      simp [get_tool_chain, h, hv2]

/-- Claim C8: witness - a known override (`gcc` with `-Wall -O2`) is used with
its flags, and a config without a `comp` section gives the default `g++` with
no flags. -/
theorem get_tool_chain_behavior_witness :
    get_tool_chain cfgKnownTool = (str "gcc", [str "-Wall", str "-O2"]) ∧
    get_tool_chain (write_default_config TCKind.cpp) = (str "g++", ([] : List Str)) :=
  ⟨((get_tool_chain_behavior cfgKnownTool
        ⟨some (str "gcc"), some (str "-Wall -O2")⟩).2 rfl).1 (by decide),
   (get_tool_chain_behavior (write_default_config TCKind.cpp) ⟨none, none⟩).1 rfl⟩

/-- Claim C8, counterexample to the claim as stated: the unknown override
`clang` with flags `-O2` falls back to `g++` but RETAINS the `-O2` flag,
contradicting the claimed fall-back to the default with no flags. -/
theorem toolchain_fallback_keeps_flags_cex :
    get_tool_chain cfgUnknownTool = (str "g++", [str "-O2"]) ∧
    [str "-O2"] ≠ ([] : List Str) := by
  decide

end BuildMeC
